import Mathlib

/-!
Verification development for the `ui-controller-mcp` repository.

This file gives a shallow embedding, in Lean 4, of the action-orchestration
and perception core of the repository:
  * `src/ui_controller_mcp/utils/safety.py`   (SafetyGuard)
  * `src/ui_controller_mcp/utils/context.py`  (ContextTracker)
  * `src/ui_controller_mcp/utils/vision.py`   (VisionEngine.find_template)
  * `src/ui_controller_mcp/tools/handlers.py` (ToolExecutor)

Python dictionaries are embedded as association lists of string keys and
`Value`s; Python floats are embedded as exact rationals (the claims under
study concern control flow and ordering, not rounding); machine integers
are `Nat`/`Int`.  External collaborators (the desktop capability of §6 of
the spec, the credential store, the vision library call, the AI client,
the file system) are parameters of the embedding, gathered in `Env`.
Exceptions escaping `ToolExecutor.execute` are embedded as `Except PyErr`.
Character-level string operations model the ASCII fragment of Python's
`str.strip`/`str.lower` and of the `re` patterns used by the guard.
-/

namespace UCMC

/-- Embedded Python value (the payloads moved around by the tool executor). -/
inductive Value where
  | vNone
  | vBool (b : Bool)
  | vInt (n : Int)
  | vRat (q : ℚ)
  | vStr (s : String)
  | vList (l : List Value)
  | vDict (d : List (String × Value))

/-- A Python dict with string keys, as an association list. -/
abbrev Dict := List (String × Value)

/-- `d.get(k)`: first binding of key `k`. -/
def dget (d : Dict) (k : String) : Option Value :=
  match d with
  | [] => none
  | (k', v) :: rest => if k' = k then some v else dget rest k

/-- `d.get(k, dflt)`. -/
def dgetD (d : Dict) (k : String) (dflt : Value) : Value :=
  (dget d k).getD dflt

/-- `k in d`. -/
def dhas (d : Dict) (k : String) : Bool :=
  (dget d k).isSome

/-- `d[k] = v`: replace the first binding in place, else append. -/
def dset (d : Dict) (k : String) (v : Value) : Dict :=
  match d with
  | [] => [(k, v)]
  | (k', v') :: rest => if k' = k then (k', v) :: rest else (k', v') :: dset rest k v

/-- `p.update(q)` for dicts: fold `q`'s bindings into `p`. -/
def dupdate (p q : Dict) : Dict :=
  q.foldl (fun acc kv => dset acc kv.1 kv.2) p

/-- Python truthiness of an embedded value. -/
def pyTruthy : Value → Bool
  | .vNone => false
  | .vBool b => b
  | .vInt n => n ≠ 0
  | .vRat q => q ≠ 0
  | .vStr s => s ≠ ""
  | .vList l => !l.isEmpty
  | .vDict d => !d.isEmpty

/-- Python `==` against a string literal (non-strings compare unequal). -/
def pyEqStr (v : Value) (s : String) : Bool :=
  match v with
  | .vStr t => t = s
  | _ => false

/-- `str(v)` for the scalar values interpolated into the executor's
messages (containers are abbreviated; no claim inspects them). -/
def pyStr : Value → String
  | .vNone => "None"
  | .vBool b => if b then "True" else "False"
  | .vInt n => toString n
  | .vRat q => toString q
  | .vStr s => s
  | .vList _ => "[...]"
  | .vDict _ => "\x7b...\x7d"

/-- Numeric view of a value (Python `bool` is an `int`). -/
def valToInt : Value → Option Int
  | .vInt n => some n
  | .vBool b => some (if b then 1 else 0)
  | _ => none

/-- Numeric view including floats, for order comparisons. -/
def valToQ : Value → Option ℚ
  | .vInt n => some (n : ℚ)
  | .vBool b => some (if b then 1 else 0)
  | .vRat q => some q
  | _ => none

/-- The ASCII whitespace recognized by `str.strip` and `\s`. -/
def isPySpace (c : Char) : Bool :=
  c = ' ' || c = '\t' || c = '\n' || c = '\r' || c = '\x0b' || c = '\x0c'

/-- ASCII `str.lower` on one character. -/
def lowerChar (c : Char) : Char :=
  if 'A' ≤ c && c ≤ 'Z' then Char.ofNat (c.toNat + 32) else c

/-- `s.strip()` on a character list. -/
def pyStripList (l : List Char) : List Char :=
  ((l.dropWhile isPySpace).reverse.dropWhile isPySpace).reverse

/-- `s.strip()`. -/
def pyStrip (s : String) : String :=
  String.mk (pyStripList s.toList)

/-- `s.lower()` (ASCII fragment). -/
def pyLower (s : String) : String :=
  String.mk (s.toList.map lowerChar)

/-- The guard's normalization `s.strip().lower()`. -/
def pyNorm (s : String) : String :=
  pyLower (pyStrip s)

/-- Does `hay` start with `needle`? -/
def listStartsWith : List Char → List Char → Bool
  | [], _ => true
  | _ :: _, [] => false
  | a :: as, b :: bs => a = b && listStartsWith as bs

/-- Does `needle` occur as a contiguous run inside `hay`? -/
def listIsInfix (needle : List Char) : List Char → Bool
  | [] => needle.isEmpty
  | c :: rest => listStartsWith needle (c :: rest) || listIsInfix needle rest

/-- `needle in hay` as substring. -/
def strContains (hay needle : String) : Bool :=
  listIsInfix needle.toList hay.toList

/-! ### SafetyGuard (`utils/safety.py`) -/

/-- Consume one-or-more whitespace characters (`\s+`), returning the rest. -/
def wsPlus : List Char → Option (List Char)
  | [] => none
  | c :: rest =>
    if isPySpace c then
      some (rest.dropWhile isPySpace)
    else
      none

/-- Does `re.compile(r"rm\s+-rf")` match at the head of the list? -/
def rmRfHere (l : List Char) : Bool :=
  match l with
  | 'r' :: 'm' :: rest =>
    match wsPlus rest with
    | some rest2 => listStartsWith ['-', 'r', 'f'] rest2
    | none => false
  | _ => false

/-- Does `re.compile(r"format\s+c:")` match at the head of the list? -/
def formatCHere (l : List Char) : Bool :=
  if listStartsWith "format".toList l then
    match wsPlus (l.drop 6) with
    | some rest2 => listStartsWith ['c', ':'] rest2
    | none => false
  else
    false

/-- `pattern.search`: does `here` match at some position of the list? -/
def searchHere (here : List Char → Bool) : List Char → Bool
  | [] => here []
  | c :: rest => here (c :: rest) || searchHere here rest

/-- The guard's `banned_patterns`, as regex source text plus matcher,
in declaration order.  The patterns carry `re.IGNORECASE` and the guard
lowercases its input first, so matching on the lowercased text suffices. -/
def bannedPatterns : List (String × (List Char → Bool)) :=
  [ ("rm\\s+-rf", searchHere rmRfHere),
    ("shutdown", fun l => listIsInfix "shutdown".toList l),
    ("mkfs", fun l => listIsInfix "mkfs".toList l),
    ("format\\s+c:", searchHere formatCHere) ]

/-- The first banned pattern (its regex source) matching the normalized
text, scanning in declaration order as the Python `for` loop does. -/
def firstBanned (normalized : String) : Option String :=
  (bannedPatterns.find? (fun p => p.2 normalized.toList)).map (fun p => p.1)

/-- Does the normalized text match any banned pattern? -/
def matchesBanned (normalized : String) : Bool :=
  (firstBanned normalized).isSome

/-- `SafetyCheckResult` dataclass. -/
structure SafetyCheckResult where
  allowed : Bool
  reason : Option String := none
deriving DecidableEq

/-- `SafetyGuard`: its only per-instance state is the lowercased
allow-list built by `__init__`. -/
structure SafetyGuard where
  allowed_launch_targets : List String
deriving DecidableEq

/-- `SafetyGuard(allowed_launch_targets)`: lowercases each target. -/
def SafetyGuard.make (targets : List String) : SafetyGuard :=
  ⟨targets.map pyLower⟩

/-- `SafetyGuard.validate_launch_target`. -/
def validate_launch_target (g : SafetyGuard) (target : String) : SafetyCheckResult :=
  let normalized := pyNorm target
  match firstBanned normalized with
  | some pat =>
    ⟨false, some ("Launch target failed safety check: pattern \x27" ++ pat ++ "\x27 disallowed")⟩
  | none =>
    if !g.allowed_launch_targets.isEmpty && !g.allowed_launch_targets.contains normalized then
      ⟨false, some "Launch target is not on the allow list"⟩
    else
      ⟨true, none⟩

/-- `SafetyGuard.validate_text`. -/
def validate_text (text : String) : SafetyCheckResult :=
  let normalized := pyNorm text
  if matchesBanned normalized then
    ⟨false, some "Text input failed safety check"⟩
  else
    ⟨true, none⟩

/-! ### ActionHistory (`utils/context.py`) -/

/-- `ActionLog` dataclass.  `time.time()` is embedded as a `Nat` supplied
by the caller's environment; `success` holds `result.get("success", False)`
as-is (Python does not force it to a `bool`). -/
structure LogEntry where
  timestamp : Nat
  tool_name : String
  params : Dict
  result : Dict
  success : Value

/-- `dataclasses.asdict` on an `ActionLog`. -/
def entryToDict (e : LogEntry) : Dict :=
  [ ("timestamp", .vInt e.timestamp),
    ("tool_name", .vStr e.tool_name),
    ("params", .vDict e.params),
    ("result", .vDict e.result),
    ("success", e.success) ]

/-- `ContextTracker`. -/
structure ContextTracker where
  max_history : Nat
  history : List LogEntry

/-- `ContextTracker(max_history=50)` starting empty. -/
def ContextTracker.init (n : Nat := 50) : ContextTracker :=
  ⟨n, []⟩

/-- `ContextTracker.log_action`: append, then `pop(0)` once if the buffer
now exceeds `max_history`. -/
def ContextTracker.log_action (t : ContextTracker) (now : Nat) (tool_name : String)
    (params result : Dict) : ContextTracker :=
  let success := (dget result "success").getD (.vBool false)
  let h := t.history ++ [⟨now, tool_name, params, result, success⟩]
  if t.max_history < h.length then
    ⟨t.max_history, h.drop 1⟩
  else
    ⟨t.max_history, h⟩

/-- Python list slice `l[a:]` for an integer `a` (negative indices count
from the end; out-of-range starts clamp).  -/
def pySliceFrom (l : List α) (a : Int) : List α :=
  if a < 0 then
    l.drop (l.length - (-a).toNat)
  else
    l.drop a.toNat

/-- `ContextTracker.get_recent_history`: `self._history[-limit:]`,
reversed (newest first), each entry rendered with `asdict`. -/
def ContextTracker.get_recent_history (t : ContextTracker) (limit : Int) : List Dict :=
  ((pySliceFrom t.history (-limit)).reverse).map entryToDict

/-! ### TemplateMatcher (`utils/vision.py`) -/

/-- A candidate coordinate of the score surface: position plus the
correlation score read off `result[y, x]`.  The candidate list stands for
`locations` in `find_template`, in score-surface scan order; scores are
embedded as exact rationals. -/
structure Cand where
  x : Nat
  y : Nat
  score : ℚ
deriving DecidableEq

instance : Inhabited Cand := ⟨⟨0, 0, 0⟩⟩

/-- One returned match dict of `find_template`. -/
structure TMatch where
  center_x : Nat
  center_y : Nat
  x : Nat
  y : Nat
  w : Nat
  h : Nat
  confidence : ℚ
deriving DecidableEq

/-- `abs(x - px) < w/2 and abs(y - py) < h/2`, exactly (`w/2` is Python
float division of ints; `abs d < w/2` over ints is `2*abs d < w`). -/
def closePoints (w h : Nat) (x y px py : Nat) : Bool :=
  2 * Nat.dist x px < w && 2 * Nat.dist y py < h

/-- Is the candidate within `w/2 × h/2` of some processed point? -/
def isDup (w h : Nat) (pts : List (Nat × Nat)) (x y : Nat) : Bool :=
  pts.any (fun p => closePoints w h x y p.1 p.2)

/-- Build the match dict appended for an accepted candidate
(`int(x + w/2)` on nonnegative ints is `x + w / 2` in `Nat`). -/
def toMatch (w h : Nat) (c : Cand) : TMatch :=
  ⟨c.x + w / 2, c.y + h / 2, c.x, c.y, w, h, c.score⟩

/-- The deduplication loop of `find_template`: scan the candidates in
order, keeping one exactly when it is not close to an already-kept
coordinate; `pts` is `processed_points` so far. -/
def nmsAux (w h : Nat) (pts : List (Nat × Nat)) : List Cand → List Cand
  | [] => []
  | c :: rest =>
    if isDup w h pts c.x c.y then
      nmsAux w h pts rest
    else
      c :: nmsAux w h (pts ++ [(c.x, c.y)]) rest

/-- "`a` sorts no later than `b`" for the final
`matches.sort(key=confidence, reverse=True)`. -/
def matchGE (a b : TMatch) : Prop := b.confidence ≤ a.confidence

instance : DecidableRel matchGE := fun _ _ => inferInstanceAs (Decidable (_ ≤ _))

instance : IsTotal TMatch matchGE := ⟨fun a b => le_total b.confidence a.confidence⟩

instance : IsTrans TMatch matchGE := ⟨fun _ _ _ h1 h2 => le_trans h2 h1⟩

/-- The pure core of `VisionEngine.find_template`: deduplicate the
candidates in scan order, then sort by descending confidence with
Python's stable sort (embedded as the canonical stable sort,
`List.insertionSort`). -/
def find_template (w h : Nat) (cands : List Cand) : List TMatch :=
  List.insertionSort matchGE ((nmsAux w h [] cands).map (toMatch w h))

/-- Declarative acceptance predicate for the deduplication: candidate `i`
is kept iff there is no earlier kept candidate within `w/2 × h/2` of it. -/
def keptIdx (w h : Nat) (l : List Cand) (i : Nat) : Bool :=
  (List.range i).attach.all (fun j =>
    !(keptIdx w h l j.1 && closePoints w h (l.getD i default).x (l.getD i default).y
        (l.getD j.1 default).x (l.getD j.1 default).y))
termination_by i
decreasing_by exact List.mem_range.mp j.2

/-! ### ToolExecutor (`tools/handlers.py`)

The desktop capability, credential store, vision library, AI client,
skill registry and file system are the external collaborators of §6 of
the spec; they enter the embedding as the fields of `Env` below. -/

/-- `base64.b64encode` alphabet. -/
def b64Alphabet : List Char :=
  "ABCDEFGHIJKLMNOPQRSTUVWXYZabcdefghijklmnopqrstuvwxyz0123456789+/".toList

/-- One output character of base64. -/
def b64Char (n : Nat) : Char :=
  b64Alphabet.getD n 'A'

/-- `base64.b64encode` over bytes (each < 256). -/
def b64encode : List Nat → List Char
  | [] => []
  | [a] => [b64Char (a / 4), b64Char (a % 4 * 16), '=', '=']
  | [a, b] => [b64Char (a / 4), b64Char (a % 4 * 16 + b / 16), b64Char (b % 16 * 4), '=']
  | a :: b :: c :: rest =>
    b64Char (a / 4) :: b64Char (a % 4 * 16 + b / 16) ::
      b64Char (b % 16 * 4 + c / 64) :: b64Char (c % 64) :: b64encode rest

/-- `DesktopActionResult` dataclass (`desktop/base.py`). -/
structure DResult where
  success : Bool
  message : String
  data : Option Dict

/-- The desktop capability interface of §6, one function per operation.
`type_text` takes the optional `enter` keyword the executor passes on
credential-typing paths. -/
structure Controller where
  launch_app : String → DResult
  focus_window : Value → DResult
  click : Value → Value → Value → DResult
  type_text : String → Option Value → DResult
  scroll : Value → Value → DResult
  screenshot : DResult
  run_terminal_cmd : Value → DResult

/-- The AI client (`ai/client.py`): both calls catch every exception and
return an error string, so they are total string-valued functions. -/
structure AIClientM where
  analyze_image : Value → Value → String
  plan_action : Value → Value → String

/-- What the file system says about one resolved path. -/
structure FileStat where
  pathExists : Bool
  isFile : Bool
  stat : Except String Nat
  readB : Except String (List Nat)

/-- The capability calls a handler performs, in order. -/
inductive CapCall where
  | launch (target : String)
  | focus (title : Value)
  | click (x y button : Value)
  | typeText (text : String) (enter : Option Value)
  | scroll (amount direction : Value)
  | screenshot
  | runCmd (command : Value)
  | readFile (path : String)

/-- An exception escaping the executor. -/
inductive PyErr where
  | valueError (msg : String)
  | typeError (msg : String)
  | attributeError (msg : String)
deriving DecidableEq

/-- The executor's collaborators and configuration. -/
structure Env where
  ctrl : Controller
  guard : SafetyGuard
  ai : Option AIClientM
  max_read_size : Nat := 5 * 1024 * 1024
  resolvePath : String → String
  fs : String → FileStat
  getCred : Value → Option String
  setCred : Value → Value → Bool
  vision : Value → Value → Value → Except String (List Dict)
  skillLookup : Value → Option (Value → Except String Dict)
  dbus : Except String Unit
  waitPolls : Nat
  now : Nat

/-- A handler's outcome: a result dict plus the capability calls made,
or an exception. -/
abbrev HOut := Except PyErr (Dict × List CapCall)

/-- `{"success": False, "error": e}`. -/
def errD (e : String) : Dict :=
  [("success", .vBool false), ("error", .vStr e)]

/-- Embed an `Optional[str]` value. -/
def optStrVal : Option String → Value
  | some s => .vStr s
  | none => .vNone

/-- Embed an `Optional[dict]` value. -/
def optDictVal : Option Dict → Value
  | some d => .vDict d
  | none => .vNone

/-- `_launch_app`. -/
def launchAppH (env : Env) (params : Dict) : HOut :=
  match dgetD params "target" (.vStr "") with
  | .vStr raw =>
    let target := pyStrip raw
    let check := validate_launch_target env.guard target
    if !check.allowed then
      .ok ([("success", .vBool false), ("error", optStrVal check.reason)], [])
    else
      let r := env.ctrl.launch_app target
      .ok ([("success", .vBool r.success), ("message", .vStr r.message),
            ("data", optDictVal r.data)], [.launch target])
  | _ => .error (.attributeError "strip")

/-- `_focus_window`. -/
def focusWindowH (env : Env) (params : Dict) : HOut :=
  let title := dgetD params "title" (.vStr "")
  let r := env.ctrl.focus_window title
  .ok ([("success", .vBool r.success), ("message", .vStr r.message)], [.focus title])

/-- `_click`. -/
def clickH (env : Env) (params : Dict) : HOut :=
  let x := (dget params "x").getD .vNone
  let y := (dget params "y").getD .vNone
  let button := dgetD params "button" (.vStr "left")
  let r := env.ctrl.click x y button
  .ok ([("success", .vBool r.success), ("message", .vStr r.message)], [.click x y button])

/-- `_type_text`. -/
def typeTextH (env : Env) (params : Dict) : HOut :=
  match dgetD params "text" (.vStr "") with
  | .vStr text =>
    let check := validate_text text
    if !check.allowed then
      .ok ([("success", .vBool false), ("error", optStrVal check.reason)], [])
    else
      let r := env.ctrl.type_text text none
      .ok ([("success", .vBool r.success), ("message", .vStr r.message)], [.typeText text none])
  | _ => .error (.attributeError "strip")

/-- `_scroll`. -/
def scrollH (env : Env) (params : Dict) : HOut :=
  let amount := dgetD params "amount" (.vInt 0)
  let direction := dgetD params "direction" (.vStr "vertical")
  let r := env.ctrl.scroll amount direction
  .ok ([("success", .vBool r.success), ("message", .vStr r.message)], [.scroll amount direction])

/-- `_screenshot`. -/
def screenshotH (env : Env) : HOut :=
  let r := env.ctrl.screenshot
  let payload : Dict := [("success", .vBool r.success), ("message", .vStr r.message)]
  let payload := match r.data with
    | some d => dupdate payload d
    | none => payload
  .ok (payload, [.screenshot])

/-- `_get_bytes`. -/
def getBytesH (env : Env) (params : Dict) : HOut :=
  let raw := dgetD params "path" (.vStr "")
  if !pyTruthy raw then
    .ok (errD "File path is required", [])
  else
    match raw with
    | .vStr rawPath =>
      let path := env.resolvePath rawPath
      let st := env.fs path
      if !st.pathExists then
        .ok (errD ("File not found: " ++ path), [])
      else if !st.isFile then
        .ok (errD ("Path is not a file: " ++ path), [])
      else
        match st.stat with
        | .error exc => .ok (errD ("Unable to read file metadata: " ++ exc), [])
        | .ok size =>
          if env.max_read_size < size then
            let sz := toString size
            let lim := toString env.max_read_size
            .ok (errD ("File is too large to read safely (size=" ++ sz ++
                  " bytes, limit=" ++ lim ++ " bytes)"), [])
          else
            match st.readB with
            | .error exc => .ok (errD ("Unable to read file: " ++ exc), [.readFile path])
            | .ok content =>
              let encoded := String.mk (b64encode content)
              .ok ([("success", .vBool true), ("message", .vStr "File bytes encoded"),
                    ("data", .vDict [("path", .vStr path), ("size", .vInt size),
                                     ("base64_data", .vStr encoded)])], [.readFile path])
    | _ => .error (.typeError "Path")

/-- `_perceive`. -/
def perceiveH (env : Env) (params : Dict) : HOut :=
  match env.ai with
  | none => .ok (errD "AI capabilities not available", [])
  | some ai =>
    let sr := env.ctrl.screenshot
    let dataOk := match sr.data with
      | some d => !d.isEmpty
      | none => false
    if !sr.success || !dataOk then
      .ok (errD ("Failed to take screenshot: " ++ sr.message), [.screenshot])
    else
      let d := sr.data.getD []
      let image_data := (dget d "base64_data").getD .vNone
      if !pyTruthy image_data then
        .ok (errD "No base64 image data available from screenshot", [.screenshot])
      else
        let instruction := dgetD params "instruction" (.vStr "")
        let analysis := ai.analyze_image image_data instruction
        .ok ([("success", .vBool true), ("message", .vStr "Screen analyzed"),
              ("analysis", .vStr analysis)], [.screenshot])

/-- `_reason`. -/
def reasonH (env : Env) (params : Dict) : HOut :=
  match env.ai with
  | none => .ok (errD "AI capabilities not available", [])
  | some ai =>
    let analysis := dgetD params "analysis" (.vStr "")
    let goal := dgetD params "goal" (.vStr "")
    let plan := ai.plan_action analysis goal
    .ok ([("success", .vBool true), ("message", .vStr "Action planned"),
          ("plan", .vStr plan)], [])

/-- `_manage_credentials`. -/
def manageCredentialsH (env : Env) (params : Dict) : HOut :=
  let action := (dget params "action").getD .vNone
  let cred_id := (dget params "id").getD .vNone
  if !pyTruthy cred_id then
    .ok (errD "Credential ID required", [])
  else if pyEqStr action "set" then
    let value := (dget params "value").getD .vNone
    if !pyTruthy value then
      .ok (errD "Value required for set action", [])
    else if env.setCred cred_id value then
      .ok ([("success", .vBool true),
            ("message", .vStr ("Credential \x27" ++ pyStr cred_id ++ "\x27 stored securely"))], [])
    else
      .ok (errD "Failed to store credential", [])
  else if pyEqStr action "check" then
    let status := if (env.getCred cred_id).isSome then "exists" else "does not exist"
    .ok ([("success", .vBool true),
          ("message", .vStr ("Credential \x27" ++ pyStr cred_id ++ "\x27 " ++ status))], [])
  else
    .ok (errD ("Unknown action: " ++ pyStr action), [])

/-- `_type_password`. -/
def typePasswordH (env : Env) (params : Dict) : HOut :=
  let cred_id := (dget params "id").getD .vNone
  let enter := dgetD params "enter" (.vBool true)
  let notFound : HOut :=
    .ok (errD ("Credential \x27" ++ pyStr cred_id ++ "\x27 not found"), [])
  match env.getCred cred_id with
  | none => notFound
  | some password =>
    if password = "" then
      notFound
    else
      let r := env.ctrl.type_text password (some enter)
      if r.success then
        .ok ([("success", .vBool true), ("message", .vStr "Password typed securely")],
             [.typeText password (some enter)])
      else
        .ok ([("success", .vBool false), ("error", .vStr r.message)],
             [.typeText password (some enter)])

/-- `_handle_sudo`. -/
def handleSudoH (env : Env) : HOut :=
  typePasswordH env [("id", .vStr "sudo_pass"), ("enter", .vBool true)]

/-- `_find_image`.  The `VisionEngine` call is wrapped in
`try/except`, so it enters the embedding as `env.vision` returning
`Except`; its argument order is (screenshot bytes, template path,
confidence). -/
def findImageH (env : Env) (params : Dict) : Dict × List CapCall :=
  let template_path := (dget params "template_path").getD .vNone
  let confidence := dgetD params "confidence" (.vRat (4 / 5))
  if !pyTruthy template_path then
    (errD "Template path required", [])
  else
    let sr := env.ctrl.screenshot
    let dataOk := match sr.data with
      | some d => !d.isEmpty
      | none => false
    if !sr.success || !dataOk then
      (errD ("Failed to take screenshot: " ++ sr.message), [.screenshot])
    else
      let d := sr.data.getD []
      let screenshot_b64 := (dget d "base64_data").getD .vNone
      match env.vision screenshot_b64 template_path confidence with
      | .error e => (errD ("Vision error: " ++ e), [.screenshot])
      | .ok ms =>
        let n := toString ms.length
        (([("success", .vBool true), ("message", .vStr ("Found " ++ n ++ " matches")),
           ("matches", .vList (ms.map .vDict))]), [.screenshot])

/-- The polling loop of `_wait_for_image`: each pass calls
`_find_image`; the fuel is the number of passes the wall clock allows. -/
def waitLoop (env : Env) (template_path confidence : Value) (timeoutMsg : String) :
    Nat → Dict × List CapCall
  | 0 => ([("success", .vBool false), ("message", .vStr timeoutMsg)], [])
  | n + 1 =>
    let fi := findImageH env [("template_path", template_path), ("confidence", confidence)]
    let r := fi.1
    if pyTruthy ((dget r "success").getD .vNone) && pyTruthy ((dget r "matches").getD .vNone) then
      match dget r "matches" with
      | some (.vList (best :: _)) =>
        ([("success", .vBool true), ("message", .vStr "Image found"), ("match", best)], fi.2)
      | _ =>
        let rec' := waitLoop env template_path confidence timeoutMsg n
        (rec'.1, fi.2 ++ rec'.2)
    else
      let rec' := waitLoop env template_path confidence timeoutMsg n
      (rec'.1, fi.2 ++ rec'.2)

/-- `_wait_for_image`.  `time.time() - start_time < timeout` runs zero
passes when `timeout <= 0` and at least one otherwise (`env.waitPolls`
counts the further passes the clock admits); a non-numeric `timeout`
raises `TypeError` in the comparison. -/
def waitForImageH (env : Env) (params : Dict) : HOut :=
  let template_path := (dget params "template_path").getD .vNone
  let timeoutV := dgetD params "timeout" (.vInt 10)
  let confidence := dgetD params "confidence" (.vRat (4 / 5))
  match valToQ timeoutV with
  | none => .error (.typeError "comparison of float and non-number")
  | some t =>
    let msg := "Timeout waiting for image after " ++ pyStr timeoutV ++ "s"
    let fuel := if t ≤ 0 then 0 else env.waitPolls + 1
    .ok (waitLoop env template_path confidence msg fuel)

/-- `_run_terminal_cmd`.  `result.data.get(...)` raises
`AttributeError` when the capability returned `data=None`. -/
def runTerminalCmdH (env : Env) (params : Dict) : HOut :=
  let command := (dget params "command").getD .vNone
  if !pyTruthy command then
    .ok (errD "Command required", [])
  else
    let r := env.ctrl.run_terminal_cmd command
    match r.data with
    | none => .error (.attributeError "NoneType has no attribute get")
    | some d =>
      .ok ([("success", .vBool r.success), ("message", .vStr r.message),
            ("stdout", dgetD d "stdout" (.vStr "")),
            ("stderr", dgetD d "stderr" (.vStr "")),
            ("returncode", dgetD d "returncode" (.vInt (-1)))], [.runCmd command])

/-- `_check_notification`: the whole body is one `try` block producing a
fixed payload; `env.dbus` abstracts the `dbus-monitor` subprocess. -/
def checkNotificationH (env : Env) : HOut :=
  match env.dbus with
  | .ok _ =>
    .ok ([("success", .vBool true),
          ("message", .vStr "Checked for notifications (basic implementation)"),
          ("found", .vBool false), ("title", .vStr ""), ("body", .vStr "")], [])
  | .error e => .ok (errD ("Failed to check notifications: " ++ e), [])

/-- `_use_skill`: look the skill up, run it inside `try/except`, pass its
dict through verbatim on success. -/
def useSkillH (env : Env) (params : Dict) : HOut :=
  let skill_name := (dget params "skill").getD .vNone
  let skill_params := dgetD params "params" (.vDict [])
  if !pyTruthy skill_name then
    .ok (errD "Skill name required", [])
  else
    match env.skillLookup skill_name with
    | none => .ok (errD ("Skill \x27" ++ pyStr skill_name ++ "\x27 not found"), [])
    | some skill =>
      match skill skill_params with
      | .ok d => .ok (d, [])
      | .error e => .ok (errD ("Skill execution failed: " ++ e), [])

/-- `_get_agent_history`: slicing with a non-integer `limit` raises
`TypeError`. -/
def getAgentHistoryH (tracker : ContextTracker) (params : Dict) : HOut :=
  let limitV := dgetD params "limit" (.vInt 10)
  match valToInt limitV with
  | none => .error (.typeError "slice indices must be integers")
  | some limit =>
    let history := tracker.get_recent_history limit
    .ok ([("success", .vBool true), ("history", .vList (history.map .vDict))], [])

/-- `_execute_tool`: the dispatch chain of `handlers.py`.  The
`list_windows` arm calls `self._list_windows(params)` although
`_list_windows(self)` accepts no argument, so that call raises
`TypeError` before any handler code runs. -/
def executeToolH (env : Env) (tracker : ContextTracker) (name : String) (params : Dict) : HOut :=
  if name = "launch_app" then launchAppH env params
  else if name = "list_windows" then
    .error (.typeError "_list_windows() takes 1 positional argument but 2 were given")
  else if name = "focus_window" then focusWindowH env params
  else if name = "click" then clickH env params
  else if name = "type_text" then typeTextH env params
  else if name = "scroll" then scrollH env params
  else if name = "drag" then
    .ok (errD "Tool \x27drag\x27 not implemented yet.", [])
  else if name = "get_screen_info" then
    .ok (errD "Tool \x27get_screen_info\x27 not implemented yet.", [])
  else if name = "screenshot" then screenshotH env
  else if name = "get_bytes" then getBytesH env params
  else if name = "perceive" then perceiveH env params
  else if name = "reason" then reasonH env params
  else if name = "manage_credentials" then manageCredentialsH env params
  else if name = "type_password" then typePasswordH env params
  else if name = "handle_sudo" then handleSudoH env
  else if name = "find_image" then .ok (findImageH env params)
  else if name = "wait_for_image" then waitForImageH env params
  else if name = "run_terminal_cmd" then runTerminalCmdH env params
  else if name = "check_notification" then checkNotificationH env
  else if name = "use_skill" then useSkillH env params
  else if name = "get_agent_history" then getAgentHistoryH tracker params
  else .error (.valueError ("Unsupported tool: " ++ name))

/-- The masking done by `execute` before logging: a copy of `params`
whose top-level `"password"` entry, if present, is replaced by "***". -/
def maskParams (params : Dict) : Dict :=
  if dhas params "password" then dset params "password" (.vStr "***") else params

/-- `ToolExecutor.execute`: run the tool, then log the masked params and
the result to the context tracker; exceptions skip the log and
propagate. -/
def executeE (env : Env) (tracker : ContextTracker) (name : String) (params : Dict) :
    Except PyErr (Dict × List CapCall × ContextTracker) :=
  match executeToolH env tracker name params with
  | .error e => .error e
  | .ok (result, calls) =>
    let tracker2 := tracker.log_action env.now name (maskParams params) result
    .ok (result, calls, tracker2)

/-! ### Auxiliary definitions for the statements -/

mutual

/-- Does `secret` occur (as a substring) in some string value reachable
inside this value?  Keys of nested dicts are code literals in every dict
the executor builds, so only values are searched. -/
def valueMentions (secret : String) : Value → Bool
  | .vStr t => strContains t secret
  | .vList l => listMentions secret l
  | .vDict d => dictValsMentions secret d
  | _ => false

/-- `valueMentions` over a list of values. -/
def listMentions (secret : String) : List Value → Bool
  | [] => false
  | v :: rest => valueMentions secret v || listMentions secret rest

/-- `valueMentions` over the values of a dict. -/
def dictValsMentions (secret : String) : List (String × Value) → Bool
  | [] => false
  | (_, v) :: rest => valueMentions secret v || dictValsMentions secret rest

end

/-- The last `n` elements of a list. -/
def lastN (n : Nat) (l : List α) : List α :=
  l.drop (l.length - n)

/-- One recorded action: timestamp, tool name, params, result. -/
abbrev ActSpec := Nat × String × Dict × Dict

/-- The `ActionLog` entry `log_action` builds for a recorded action. -/
def mkEntry (a : ActSpec) : LogEntry :=
  ⟨a.1, a.2.1, a.2.2.1, a.2.2.2, (dget a.2.2.2 "success").getD (.vBool false)⟩

/-- Log a sequence of actions into a fresh tracker of capacity `N`. -/
def logFold (N : Nat) (acts : List ActSpec) : ContextTracker :=
  acts.foldl (fun tr a => tr.log_action a.1 a.2.1 a.2.2.1 a.2.2.2) ⟨N, []⟩

/-- The result dict of a non-raising `execute` outcome. -/
def resultOf (x : Except PyErr (Dict × List CapCall × ContextTracker)) : Option Dict :=
  match x with
  | .ok (r, _, _) => some r
  | .error _ => none

/-! ### Concrete fixtures (used to instantiate the universally
quantified theorems at sample inputs) -/

/-- A concrete desktop capability in the style of
`NoOpDesktopController`. -/
def sampleController : Controller where
  launch_app := fun t => ⟨true, "Launch request recorded for " ++ t, none⟩
  focus_window := fun _ => ⟨true, "Focus request recorded", none⟩
  click := fun _ _ _ => ⟨true, "Click recorded", none⟩
  type_text := fun _ _ => ⟨true, "Text typed", none⟩
  scroll := fun _ _ => ⟨true, "Scroll recorded", none⟩
  screenshot := ⟨true, "Screenshot captured", some [("base64_data", .vStr "QUJD")]⟩
  run_terminal_cmd := fun _ => ⟨true, "Command executed", some []⟩

/-- A concrete environment: one stored credential, a file system with a
missing path and an oversized file, no skills, no AI client. -/
def sampleEnv : Env where
  ctrl := sampleController
  guard := SafetyGuard.make []
  ai := none
  resolvePath := id
  fs := fun p =>
    if p = "/tmp/missing.txt" then ⟨false, false, .error "ENOENT", .error "ENOENT"⟩
    else if p = "/tmp/big.bin" then ⟨true, true, .ok 6291456, .ok []⟩
    else ⟨true, true, .ok 3, .ok [104, 105, 33]⟩
  getCred := fun v => if pyEqStr v "sudo_pass" then some "s3cret" else none
  setCred := fun _ _ => true
  vision := fun _ _ _ => .ok []
  skillLookup := fun _ => none
  dbus := .ok ()
  waitPolls := 0
  now := 1700000000

/-- A fresh tracker with the default capacity. -/
def emptyTracker : ContextTracker := ContextTracker.init

/-- A sample history entry. -/
def sampleEntry : LogEntry :=
  ⟨1700000000, "click", [("x", .vInt 5)], [("success", .vBool true)], .vBool true⟩

/-- A §6-conforming desktop capability whose `type_text` failure message
echoes the typed text — the shape `PyAutoGUIController.type_text` takes
when the wrapped exception text contains the input
(`"Typing failed: \x7bexc\x7d"`). -/
def echoController : Controller where
  launch_app := fun t => ⟨true, "Launch request recorded for " ++ t, none⟩
  focus_window := fun _ => ⟨true, "Focus request recorded", none⟩
  click := fun _ _ _ => ⟨true, "Click recorded", none⟩
  type_text := fun t _ => ⟨false, "Typing failed: could not type " ++ t, none⟩
  scroll := fun _ _ => ⟨true, "Scroll recorded", none⟩
  screenshot := ⟨true, "Screenshot captured", some [("base64_data", .vStr "QUJD")]⟩
  run_terminal_cmd := fun _ => ⟨true, "Command executed", some []⟩

/-- `sampleEnv` with the echoing capability. -/
def echoEnv : Env where
  ctrl := echoController
  guard := SafetyGuard.make []
  ai := none
  resolvePath := id
  fs := fun _ => ⟨false, false, .error "ENOENT", .error "ENOENT"⟩
  getCred := fun v => if pyEqStr v "sudo_pass" then some "s3cret" else none
  setCred := fun _ _ => true
  vision := fun _ _ _ => .ok []
  skillLookup := fun _ => none
  dbus := .ok ()
  waitPolls := 0
  now := 1700000000

/-! ## Helper lemmas -/

theorem listStartsWith_refl (l : List Char) : listStartsWith l l = true := by
  induction l with
  | nil => rfl
  | cons c rest ih => simp [listStartsWith, ih]

theorem listIsInfix_self (n : List Char) : listIsInfix n n = true := by
  cases n with
  | nil => rfl
  | cons c rest => simp [listIsInfix, listStartsWith_refl]

theorem listIsInfix_append_left (n s t : List Char) (h : listIsInfix n t = true) :
    listIsInfix n (s ++ t) = true := by
  induction s with
  | nil => simpa using h
  | cons c rest ih => simp [listIsInfix, ih]

theorem strContains_append_right (s t n : String) (h : strContains t n = true) :
    strContains (s ++ t) n = true := by
  unfold strContains at h ⊢
  have hdata : (s ++ t).toList = s.toList ++ t.toList := rfl
  rw [hdata]
  exact listIsInfix_append_left _ _ _ h

theorem dropWhile_dropWhile (p : α → Bool) (l : List α) :
    (l.dropWhile p).dropWhile p = l.dropWhile p := by
  induction l with
  | nil => rfl
  | cons c rest ih =>
    by_cases h : p c
    · simp [List.dropWhile, h, ih]
    · simp [List.dropWhile, h]

theorem dropWhile_head_false (p : α → Bool) (l : List α) (c : α) (rest : List α)
    (h : l.dropWhile p = c :: rest) : p c = false := by
  induction l with
  | nil => simp [List.dropWhile] at h
  | cons a as ih =>
    by_cases hp : p a
    · simp [List.dropWhile, hp] at h
      exact ih h
    · simp [List.dropWhile, hp] at h
      rw [← h.1]
      simpa using hp

/-- A list whose head fails `p` is unchanged by `dropWhile p`, and so is
any of its prefixes obtained by truncating on the right. -/
theorem dropWhile_of_head_false (p : α → Bool) (l : List α)
    (h : ∀ c rest, l = c :: rest → p c = false) : l.dropWhile p = l := by
  cases l with
  | nil => rfl
  | cons c rest => simp [List.dropWhile, h c rest rfl]

theorem pyStripList_idem (l : List Char) :
    pyStripList (pyStripList l) = pyStripList l := by
  unfold pyStripList
  set q := isPySpace with hq
  set m := l.dropWhile q with hm
  have hmfix : m.dropWhile q = m := dropWhile_dropWhile _ _
  set r := (m.reverse.dropWhile q).reverse with hr
  have hmk : m = r ++ (m.reverse.takeWhile q).reverse := by
    rw [hr, ← List.reverse_append, List.takeWhile_append_dropWhile, List.reverse_reverse]
  have hfront : r.dropWhile q = r := by
    apply dropWhile_of_head_false
    intro c rest hcr
    have hm0 : m = c :: (rest ++ (m.reverse.takeWhile q).reverse) := by
      conv_lhs => rw [hmk, hcr]
      rw [List.cons_append]
    apply dropWhile_head_false q m c (rest ++ (m.reverse.takeWhile q).reverse)
    rw [hmfix]
    exact hm0
  rw [hfront]
  have hrev : r.reverse = m.reverse.dropWhile q := by
    rw [hr, List.reverse_reverse]
  rw [hrev, dropWhile_dropWhile, ← hrev, List.reverse_reverse]

theorem pyStrip_idem (s : String) : pyStrip (pyStrip s) = pyStrip s := by
  unfold pyStrip
  have h : (String.mk (pyStripList s.toList)).toList = pyStripList s.toList := rfl
  rw [h, pyStripList_idem]

theorem pyNorm_pyStrip (s : String) : pyNorm (pyStrip s) = pyNorm s := by
  unfold pyNorm
  rw [pyStrip_idem]

/-! ## Claims -/

/-- **C6.** For every input matching a banned pattern (case-insensitively,
after trimming) `validate_text` and `validate_launch_target` return
`allowed=false`; for every input matching no banned pattern and not
excluded by a configured non-empty allow-list they return `allowed=true`.
Stated as exact boolean equations, which give both directions at once;
both functions are total Lean functions, witnessing the "never throws"
part of the claim.  -/
theorem claim_C6_safety_guard_verdicts (g : SafetyGuard) (s : String) :
    (validate_text s).allowed = !matchesBanned (pyNorm s)
    ∧ (validate_launch_target g s).allowed =
        (!matchesBanned (pyNorm s) &&
          (g.allowed_launch_targets.isEmpty
            || decide (pyNorm s ∈ g.allowed_launch_targets))) := by
  constructor
  · unfold validate_text
    by_cases hb : matchesBanned (pyNorm s) = true
    · simp [hb]
    · simp [Bool.not_eq_true] at hb
      simp [hb]
  · unfold validate_launch_target
    cases hfb : firstBanned (pyNorm s) with
    | some pat =>
      have hmb : matchesBanned (pyNorm s) = true := by simp [matchesBanned, hfb]
      simp [hfb, hmb]
    | none =>
      have hmb : matchesBanned (pyNorm s) = false := by simp [matchesBanned, hfb]
      by_cases hC : pyNorm s ∈ g.allowed_launch_targets <;>
        cases hE : g.allowed_launch_targets.isEmpty <;>
          simp [hfb, hmb, hE, hC]

/-- **C6 witness**: the theorem applied at concrete inputs. -/
theorem claim_C6_witness :
    (validate_text "please shutdown now").allowed = false
    ∧ (validate_launch_target (SafetyGuard.make ["gedit"]) " GEDIT ").allowed = true := by
  refine ⟨?_, ?_⟩
  · rw [(claim_C6_safety_guard_verdicts (SafetyGuard.make []) "please shutdown now").1]
    decide
  · rw [(claim_C6_safety_guard_verdicts (SafetyGuard.make ["gedit"]) " GEDIT ").2]
    decide

/-- **C1.** `execute("launch_app", params)` with a target matching a
banned pattern returns `success=false` with an error string containing
"disallowed", performs no capability call at all (in particular no
desktop launch), and only then logs. -/
theorem claim_C1_banned_launch_rejected
    (env : Env) (tracker : ContextTracker) (params : Dict) (target : String)
    (hT : dget params "target" = some (.vStr target))
    (hB : matchesBanned (pyNorm target) = true) :
    ∃ reason tracker2,
      executeE env tracker "launch_app" params =
        .ok ([("success", Value.vBool false), ("error", Value.vStr reason)], [], tracker2)
      ∧ strContains reason "disallowed" = true := by
  obtain ⟨pat, hfb⟩ : ∃ pat, firstBanned (pyNorm target) = some pat := by
    unfold matchesBanned at hB
    exact Option.isSome_iff_exists.mp hB
  have hnorm : pyNorm (pyStrip target) = pyNorm target := pyNorm_pyStrip target
  have hrun : executeToolH env tracker "launch_app" params =
      .ok ([("success", Value.vBool false),
            ("error", Value.vStr ("Launch target failed safety check: pattern \x27" ++ pat
              ++ "\x27 disallowed"))], []) := by
    unfold executeToolH launchAppH validate_launch_target
    simp [dgetD, hT, hnorm, hfb, optStrVal]
  refine ⟨"Launch target failed safety check: pattern \x27" ++ pat ++ "\x27 disallowed",
    tracker.log_action env.now "launch_app" (maskParams params)
      [("success", Value.vBool false),
       ("error", Value.vStr ("Launch target failed safety check: pattern \x27" ++ pat
         ++ "\x27 disallowed"))], ?_, ?_⟩
  · unfold executeE
    rw [hrun]
  · exact strContains_append_right _ "\x27 disallowed" "disallowed" (by decide)

/-- **C1 witness**: concrete banned target `"rm -rf /"`. -/
theorem claim_C1_witness :
    dget [("target", Value.vStr "rm -rf /")] "target" = some (Value.vStr "rm -rf /")
    ∧ matchesBanned (pyNorm "rm -rf /") = true
    ∧ ∃ reason tracker2,
        executeE sampleEnv emptyTracker "launch_app" [("target", Value.vStr "rm -rf /")] =
          .ok ([("success", Value.vBool false), ("error", Value.vStr reason)], [], tracker2)
        ∧ strContains reason "disallowed" = true :=
  ⟨rfl, by decide,
    claim_C1_banned_launch_rejected sampleEnv emptyTracker _ "rm -rf /" rfl (by decide)⟩

/-- **C2.** The claim says every supported tool returns an `ActionResult`
without raising.  The code violates it: the dispatch passes `params` to
`_list_windows`, whose signature takes none, so `execute("list_windows",
...)` raises `TypeError` for every environment and parameter dict.  An
unknown tool raises `ValueError` as the claim says. -/
theorem claim_C2_list_windows_dispatch_raises
    (env : Env) (tracker : ContextTracker) (params : Dict) :
    executeE env tracker "list_windows" params =
      .error (.typeError "_list_windows() takes 1 positional argument but 2 were given")
    ∧ executeE env tracker "definitely_not_a_tool" params =
      .error (.valueError "Unsupported tool: definitely_not_a_tool") := by
  exact ⟨rfl, rfl⟩

theorem log_action_lastN (N now : Nat) (name : String) (p r : Dict) (hs : List LogEntry) :
    ContextTracker.log_action ⟨N, lastN N hs⟩ now name p r =
      ⟨N, lastN N (hs ++ [⟨now, name, p, r, (dget r "success").getD (.vBool false)⟩])⟩ := by
  set e : LogEntry := ⟨now, name, p, r, (dget r "success").getD (.vBool false)⟩ with he
  unfold ContextTracker.log_action lastN
  simp only []
  by_cases hcase : hs.length < N
  · have h0 : hs.length - N = 0 := by omega
    rw [h0, List.drop_zero]
    have hc : ¬ N < (hs ++ [e]).length := by
      simp only [List.length_append, List.length_singleton]
      omega
    rw [if_neg hc]
    have h1 : (hs ++ [e]).length - N = 0 := by
      simp only [List.length_append, List.length_singleton]
      omega
    rw [h1, List.drop_zero]
  · push_neg at hcase
    have hlen : (hs.drop (hs.length - N)).length = hs.length - (hs.length - N) :=
      List.length_drop _ _
    have hc : N < (hs.drop (hs.length - N) ++ [e]).length := by
      simp only [List.length_append, List.length_singleton, hlen]
      omega
    rw [if_pos hc]
    have hd : hs.drop (hs.length - N) ++ [e] = (hs ++ [e]).drop (hs.length - N) := by
      rw [List.drop_append_of_le_length (by omega)]
    rw [hd, List.drop_drop]
    have harith : hs.length - N + 1 = (hs ++ [e]).length - N := by
      simp only [List.length_append, List.length_singleton]
      omega
    rw [harith]

theorem logFold_go (acts : List ActSpec) : ∀ (N : Nat) (hs : List LogEntry),
    acts.foldl (fun (tr : ContextTracker) (a : ActSpec) =>
        tr.log_action a.1 a.2.1 a.2.2.1 a.2.2.2) ⟨N, lastN N hs⟩ =
      (⟨N, lastN N (hs ++ acts.map mkEntry)⟩ : ContextTracker) := by
  induction acts with
  | nil => intro N hs; simp
  | cons a rest ih =>
    intro N hs
    simp only [List.foldl_cons, List.map_cons]
    rw [show (mkEntry a) = (⟨a.1, a.2.1, a.2.2.1, a.2.2.2,
        (dget a.2.2.2 "success").getD (.vBool false)⟩ : LogEntry) from rfl]
    rw [log_action_lastN, ih]
    simp [List.append_assoc]

theorem pySliceFrom_lastN (N : Nat) (l : List α) :
    pySliceFrom (lastN N l) (-(N : Int)) = lastN N l := by
  unfold pySliceFrom
  cases N with
  | zero => simp
  | succ n =>
    have hneg : (-((n + 1 : Nat) : Int)) < 0 := by
      have : (0 : ℤ) < ((n + 1 : Nat) : ℤ) := by exact_mod_cast Nat.succ_pos n
      omega
    rw [if_pos hneg]
    have ht : (-(-((n + 1 : Nat) : Int))).toNat = n + 1 := by simp
    rw [ht]
    have hlen : (lastN (n + 1) l).length ≤ n + 1 := by
      unfold lastN
      rw [List.length_drop]
      omega
    have hz : (lastN (n + 1) l).length - (n + 1) = 0 := by omega
    rw [hz, List.drop_zero]

/-- **C3.** The history buffer of a fresh tracker of capacity `N` never
holds more than `N` entries, whatever actions are logged; and after
logging `k > N` actions, `get_recent_history N` returns exactly the last
`N` logged entries, newest first (the oldest having been evicted). -/
theorem claim_C3_history_bounded_fifo (N : Nat) (acts : List ActSpec) :
    (logFold N acts).history.length ≤ N
    ∧ (N < acts.length →
        (logFold N acts).get_recent_history N =
          ((acts.map mkEntry).drop (acts.length - N)).reverse.map entryToDict) := by
  have hfold : logFold N acts = ⟨N, lastN N (acts.map mkEntry)⟩ := by
    unfold logFold
    have h0 : (⟨N, []⟩ : ContextTracker) = ⟨N, lastN N []⟩ := by
      simp [lastN]
    rw [h0, logFold_go]
    simp
  constructor
  · rw [hfold]
    unfold lastN
    simp only [List.length_drop]
    omega
  · intro _
    rw [hfold]
    unfold ContextTracker.get_recent_history
    rw [pySliceFrom_lastN]
    unfold lastN
    rw [List.length_map]

/-- **C3 witness**: capacity 1, two logged actions. -/
theorem claim_C3_witness :
    1 < ([((1 : Nat), "click", ([] : Dict), [("success", Value.vBool true)]),
          ((2 : Nat), "scroll", ([] : Dict), [("success", Value.vBool false)])] :
        List ActSpec).length
    ∧ (logFold 1 [((1 : Nat), "click", ([] : Dict), [("success", Value.vBool true)]),
          ((2 : Nat), "scroll", ([] : Dict), [("success", Value.vBool false)])]).get_recent_history 1 =
        (([((1 : Nat), "click", ([] : Dict), [("success", Value.vBool true)]),
          ((2 : Nat), "scroll", ([] : Dict), [("success", Value.vBool false)])].map mkEntry).drop
            ([((1 : Nat), "click", ([] : Dict), [("success", Value.vBool true)]),
              ((2 : Nat), "scroll", ([] : Dict), [("success", Value.vBool false)])].length - 1)).reverse.map
          entryToDict :=
  ⟨by decide,
   (claim_C3_history_bounded_fifo 1
      [((1 : Nat), "click", ([] : Dict), [("success", Value.vBool true)]),
       ((2 : Nat), "scroll", ([] : Dict), [("success", Value.vBool false)])]).2 (by decide)⟩

/-- **C4 counterexample.** The claim says `get_recent_history(limit)`
with `limit ≤ 0` returns an empty sequence; but `self._history[-0:]` is
the whole list, so with one stored entry and `limit = 0` the result is
nonempty. -/
theorem claim_C4_counterexample :
    ContextTracker.get_recent_history ⟨50, [sampleEntry]⟩ 0 ≠ [] := by
  have h : ContextTracker.get_recent_history ⟨50, [sampleEntry]⟩ 0 =
      [entryToDict sampleEntry] := rfl
  rw [h]
  simp

/-- **C4 (amended).** `get_recent_history(limit)` with `limit > 0`
returns the last `limit` entries newest-first (the whole buffer when
`limit` exceeds its size); with `limit = 0` it returns the whole buffer
newest-first; with `limit < 0` it returns all but the `|limit|` oldest
entries, newest-first. -/
theorem claim_C4_amended_get_recent_history (t : ContextTracker) (limit : Int) :
    t.get_recent_history limit =
      (if limit ≤ 0 then ((t.history.drop (-limit).toNat).reverse).map entryToDict
       else ((lastN limit.toNat t.history).reverse).map entryToDict) := by
  unfold ContextTracker.get_recent_history pySliceFrom lastN
  by_cases h : limit ≤ 0
  · rw [if_pos h]
    have hc : ¬ (-limit < 0) := by omega
    rw [if_neg hc]
  · rw [if_neg h]
    have hc : -limit < 0 := by omega
    rw [if_pos hc]
    have ht : (- -limit).toNat = limit.toNat := by omega
    rw [ht]

theorem dget_dset_same (p : Dict) (k : String) (v : Value) :
    dget (dset p k v) k = some v := by
  induction p with
  | nil => simp [dset, dget]
  | cons kv rest ih =>
    by_cases h : kv.1 = k
    · simp [dset, dget, h]
    · simp [dset, dget, h, ih]

theorem dget_dset_other (p : Dict) (k k' : String) (v : Value) (h : k' ≠ k) :
    dget (dset p k v) k' = dget p k' := by
  induction p with
  | nil => simp [dset, dget, Ne.symm h]
  | cons kv rest ih =>
    by_cases hk : kv.1 = k
    · simp [dset, dget, hk, Ne.symm h]
    · by_cases hk' : kv.1 = k'
      · simp [dset, dget, hk, hk', h]
      · simp [dset, dget, hk, hk', ih]

theorem log_action_getLast (t : ContextTracker) (now : Nat) (name : String) (p r : Dict)
    (h : 1 ≤ t.max_history) :
    (t.log_action now name p r).history.getLast? =
      some ⟨now, name, p, r, (dget r "success").getD (.vBool false)⟩ := by
  unfold ContextTracker.log_action
  by_cases hc : t.max_history <
      (t.history ++ [(⟨now, name, p, r, (dget r "success").getD (.vBool false)⟩ : LogEntry)]).length
  · rw [if_pos hc]
    cases hh : t.history with
    | nil =>
      rw [hh] at hc
      simp at hc
      omega
    | cons x xs =>
      simp only [List.cons_append, List.drop_succ_cons, List.drop_zero]
      exact List.getLast?_concat _
  · rw [if_neg hc]
    exact List.getLast?_concat _

/-- **C10.** `execute("manage_credentials", {action:"set", id, value})`
appends a history entry whose params hold the plaintext credential value
verbatim under `"value"`: the pre-log masking replaces only a top-level
parameter literally named `"password"` and leaves every other parameter
unmasked. -/
theorem claim_C10_set_value_logged_plaintext
    (env : Env) (tracker : ContextTracker) (i v : String)
    (hcap : 1 ≤ tracker.max_history) (hi : i ≠ "") (hv : v ≠ "") :
    (∃ r tr2,
        executeE env tracker "manage_credentials"
          [("action", .vStr "set"), ("id", .vStr i), ("value", .vStr v)] = .ok (r, [], tr2)
        ∧ tr2.history.getLast? = some ⟨env.now, "manage_credentials",
            [("action", .vStr "set"), ("id", .vStr i), ("value", .vStr v)], r,
            (dget r "success").getD (.vBool false)⟩
        ∧ dget [("action", Value.vStr "set"), ("id", Value.vStr i), ("value", Value.vStr v)]
            "value" = some (.vStr v))
    ∧ (∀ (p : Dict) (k : String), k ≠ "password" → dget (maskParams p) k = dget p k)
    ∧ (∀ p : Dict, dhas p "password" = true → dget (maskParams p) "password" = some (.vStr "***")) := by
  refine ⟨?_, ?_, ?_⟩
  · have hmask : maskParams [("action", Value.vStr "set"), ("id", Value.vStr i),
        ("value", Value.vStr v)] =
        [("action", Value.vStr "set"), ("id", Value.vStr i), ("value", Value.vStr v)] := rfl
    have hrun : ∃ r, executeToolH env tracker "manage_credentials"
        [("action", .vStr "set"), ("id", .vStr i), ("value", .vStr v)] = .ok (r, []) := by
      unfold executeToolH manageCredentialsH
      simp only [dget, dgetD]
      cases hset : env.setCred (.vStr i) (.vStr v) <;>
        simp [pyTruthy, pyEqStr, hi, hv, hset]
    obtain ⟨r, hr⟩ := hrun
    refine ⟨r, tracker.log_action env.now "manage_credentials"
        (maskParams [("action", .vStr "set"), ("id", .vStr i), ("value", .vStr v)]) r,
      ?_, ?_, ?_⟩
    · unfold executeE
      rw [hr]
    · rw [hmask]
      exact log_action_getLast tracker env.now "manage_credentials" _ r hcap
    · rfl
  · intro p k hk
    unfold maskParams
    by_cases hhas : dhas p "password" = true
    · rw [if_pos hhas]
      exact dget_dset_other p "password" k (.vStr "***") hk
    · rw [if_neg hhas]
  · intro p hhas
    unfold maskParams
    rw [if_pos hhas]
    exact dget_dset_same p "password" (.vStr "***")

/-- **C10 witness**: concrete set action. -/
theorem claim_C10_witness :
    ∃ r tr2,
      executeE sampleEnv emptyTracker "manage_credentials"
        [("action", .vStr "set"), ("id", .vStr "user1"), ("value", .vStr "hunter2")] =
          .ok (r, [], tr2)
      ∧ tr2.history.getLast? = some ⟨sampleEnv.now, "manage_credentials",
          [("action", .vStr "set"), ("id", .vStr "user1"), ("value", .vStr "hunter2")], r,
          (dget r "success").getD (.vBool false)⟩
      ∧ dget [("action", Value.vStr "set"), ("id", Value.vStr "user1"),
          ("value", Value.vStr "hunter2")] "value" = some (.vStr "hunter2") :=
  (claim_C10_set_value_logged_plaintext sampleEnv emptyTracker "user1" "hunter2"
    (by decide) (by decide) (by decide)).1

/-- Exact outcome of `_type_password` when the credential store holds a
non-empty secret: the handler calls the capability once and builds either
the fixed confirmation dict or `{success: false, error: m}` with `m` the
capability's `result.message` copied verbatim (`handlers.py:242-246`). -/
theorem typePasswordH_eq (env : Env) (i : String) (enterV : Value) (pw : String)
    (hcred : env.getCred (.vStr i) = some pw) (hpw : pw ≠ "") :
    typePasswordH env [("id", .vStr i), ("enter", enterV)] =
      .ok ((if (env.ctrl.type_text pw (some enterV)).success then
              [("success", Value.vBool true), ("message", Value.vStr "Password typed securely")]
            else
              [("success", Value.vBool false),
               ("error", Value.vStr (env.ctrl.type_text pw (some enterV)).message)]),
        [.typeText pw (some enterV)]) := by
  unfold typePasswordH
  simp [dget, dgetD, hcred, hpw]
  cases hrs : (env.ctrl.type_text pw (some enterV)).success <;> simp [hrs]

/-- **C9 counterexample.** The claim says the secret never appears in the
returned result; but on the capability-failure path `_type_password`
copies the capability's `result.message` verbatim into `error`
(`handlers.py:246`), so with a §6-conforming desktop capability whose
failure message echoes the typed text (the shape
`PyAutoGUIController.type_text`'s `"Typing failed: ..."` takes when the
wrapped exception text contains the input), the stored secret appears in
the returned result. -/
theorem claim_C9_counterexample :
    (resultOf (executeE echoEnv emptyTracker "type_password"
        [("id", Value.vStr "sudo_pass"), ("enter", Value.vBool true)])).map
      (dictValsMentions "s3cret") = some true := rfl

/-- **C9 (amended).** For `execute("type_password", {id, enter})` and the
`handle_sudo` wrapper (logged under `"handle_sudo"` with the caller's
masked params): the appended history entry's params are exactly the
caller's (masked) params - the secret is never added to them - and the
handler itself writes no string containing the secret: the result is
exactly the fixed confirmation dict on success and exactly
`{success: false, error: m}` on failure, `m` being the desktop
capability's own response message verbatim.  That copied message is the
one channel through which the secret can reach the result (the
counterexample shows it does when the capability echoes); whenever
neither it nor the caller-supplied strings contain the secret, the
result and the logged entry are secret-free. -/
theorem claim_C9_amended_secret_channels
    (env : Env) (tracker : ContextTracker) (pw : String)
    (hcap : 1 ≤ tracker.max_history) (hpw : pw ≠ "") :
    (∀ (i : String) (enterV : Value), env.getCred (.vStr i) = some pw →
      ∃ r tr2,
        executeE env tracker "type_password" [("id", .vStr i), ("enter", enterV)] =
          .ok (r, [.typeText pw (some enterV)], tr2)
        ∧ r = (if (env.ctrl.type_text pw (some enterV)).success then
                [("success", Value.vBool true), ("message", Value.vStr "Password typed securely")]
              else
                [("success", Value.vBool false),
                 ("error", Value.vStr (env.ctrl.type_text pw (some enterV)).message)])
        ∧ tr2.history.getLast? = some ⟨env.now, "type_password",
            [("id", .vStr i), ("enter", enterV)], r, (dget r "success").getD (.vBool false)⟩
        ∧ (strContains i pw = false → valueMentions pw enterV = false →
            strContains "Password typed securely" pw = false →
            strContains (env.ctrl.type_text pw (some enterV)).message pw = false →
            dictValsMentions pw r = false
              ∧ dictValsMentions pw [("id", Value.vStr i), ("enter", enterV)] = false))
    ∧ (∀ params : Dict, env.getCred (.vStr "sudo_pass") = some pw →
      ∃ r tr2,
        executeE env tracker "handle_sudo" params =
          .ok (r, [.typeText pw (some (Value.vBool true))], tr2)
        ∧ r = (if (env.ctrl.type_text pw (some (Value.vBool true))).success then
                [("success", Value.vBool true), ("message", Value.vStr "Password typed securely")]
              else
                [("success", Value.vBool false),
                 ("error", Value.vStr (env.ctrl.type_text pw (some (Value.vBool true))).message)])
        ∧ tr2.history.getLast? = some ⟨env.now, "handle_sudo", maskParams params, r,
            (dget r "success").getD (.vBool false)⟩
        ∧ (strContains "Password typed securely" pw = false →
            strContains (env.ctrl.type_text pw (some (Value.vBool true))).message pw = false →
            dictValsMentions pw r = false)) := by
  constructor
  · intro i enterV hcred
    set R := (if (env.ctrl.type_text pw (some enterV)).success then
        [("success", Value.vBool true), ("message", Value.vStr "Password typed securely")]
      else
        [("success", Value.vBool false),
         ("error", Value.vStr (env.ctrl.type_text pw (some enterV)).message)]) with hR
    have hrun : executeToolH env tracker "type_password" [("id", .vStr i), ("enter", enterV)] =
        .ok (R, [.typeText pw (some enterV)]) := by
      have h0 : executeToolH env tracker "type_password" [("id", .vStr i), ("enter", enterV)] =
          typePasswordH env [("id", .vStr i), ("enter", enterV)] := rfl
      rw [h0, typePasswordH_eq env i enterV pw hcred hpw, hR]
    have hmask : maskParams [("id", Value.vStr i), ("enter", enterV)] =
        [("id", Value.vStr i), ("enter", enterV)] := rfl
    refine ⟨R, tracker.log_action env.now "type_password"
        (maskParams [("id", Value.vStr i), ("enter", enterV)]) R, ?_, hR, ?_, ?_⟩
    · unfold executeE
      rw [hrun]
    · rw [hmask]
      exact log_action_getLast tracker env.now "type_password" _ R hcap
    · intro hid henter hconf hmsg
      constructor
      · rw [hR]
        cases hrs : (env.ctrl.type_text pw (some enterV)).success <;>
          simp [hrs, dictValsMentions, valueMentions, hconf, hmsg]
      · simp [dictValsMentions, valueMentions, hid, henter]
  · intro params hcred
    set R := (if (env.ctrl.type_text pw (some (Value.vBool true))).success then
        [("success", Value.vBool true), ("message", Value.vStr "Password typed securely")]
      else
        [("success", Value.vBool false),
         ("error", Value.vStr (env.ctrl.type_text pw (some (Value.vBool true))).message)]) with hR
    have hrun : executeToolH env tracker "handle_sudo" params =
        .ok (R, [.typeText pw (some (Value.vBool true))]) := by
      have h0 : executeToolH env tracker "handle_sudo" params =
          typePasswordH env [("id", .vStr "sudo_pass"), ("enter", .vBool true)] := rfl
      rw [h0, typePasswordH_eq env "sudo_pass" (.vBool true) pw hcred hpw, hR]
    refine ⟨R, tracker.log_action env.now "handle_sudo" (maskParams params) R, ?_, hR, ?_, ?_⟩
    · unfold executeE
      rw [hrun]
    · exact log_action_getLast tracker env.now "handle_sudo" _ R hcap
    · intro hconf hmsg
      rw [hR]
      cases hrs : (env.ctrl.type_text pw (some (Value.vBool true))).success <;>
        simp [hrs, dictValsMentions, valueMentions, hconf, hmsg]

/-- **C9 amended witness**: the direct call and the `handle_sudo` wrapper
with the non-echoing sample capability and the stored `sudo_pass`
secret. -/
theorem claim_C9_amended_witness :
    (∃ r tr2,
      executeE sampleEnv emptyTracker "type_password"
          [("id", .vStr "sudo_pass"), ("enter", Value.vBool true)] =
        .ok (r, [.typeText "s3cret" (some (Value.vBool true))], tr2)
      ∧ r = (if (sampleEnv.ctrl.type_text "s3cret" (some (Value.vBool true))).success then
              [("success", Value.vBool true), ("message", Value.vStr "Password typed securely")]
            else
              [("success", Value.vBool false),
               ("error", Value.vStr (sampleEnv.ctrl.type_text "s3cret"
                 (some (Value.vBool true))).message)])
      ∧ tr2.history.getLast? = some ⟨sampleEnv.now, "type_password",
          [("id", .vStr "sudo_pass"), ("enter", Value.vBool true)], r,
          (dget r "success").getD (.vBool false)⟩
      ∧ (strContains "sudo_pass" "s3cret" = false →
          valueMentions "s3cret" (Value.vBool true) = false →
          strContains "Password typed securely" "s3cret" = false →
          strContains (sampleEnv.ctrl.type_text "s3cret"
            (some (Value.vBool true))).message "s3cret" = false →
          dictValsMentions "s3cret" r = false
            ∧ dictValsMentions "s3cret"
                [("id", Value.vStr "sudo_pass"), ("enter", Value.vBool true)] = false))
    ∧ (∃ r tr2,
      executeE sampleEnv emptyTracker "handle_sudo" [("requested_by", Value.vStr "agent")] =
        .ok (r, [.typeText "s3cret" (some (Value.vBool true))], tr2)
      ∧ r = (if (sampleEnv.ctrl.type_text "s3cret" (some (Value.vBool true))).success then
              [("success", Value.vBool true), ("message", Value.vStr "Password typed securely")]
            else
              [("success", Value.vBool false),
               ("error", Value.vStr (sampleEnv.ctrl.type_text "s3cret"
                 (some (Value.vBool true))).message)])
      ∧ tr2.history.getLast? = some ⟨sampleEnv.now, "handle_sudo",
          maskParams [("requested_by", Value.vStr "agent")], r,
          (dget r "success").getD (.vBool false)⟩
      ∧ (strContains "Password typed securely" "s3cret" = false →
          strContains (sampleEnv.ctrl.type_text "s3cret"
            (some (Value.vBool true))).message "s3cret" = false →
          dictValsMentions "s3cret" r = false)) :=
  ⟨(claim_C9_amended_secret_channels sampleEnv emptyTracker "s3cret"
      (by decide) (by decide)).1 "sudo_pass" (Value.vBool true) rfl,
   (claim_C9_amended_secret_channels sampleEnv emptyTracker "s3cret"
      (by decide) (by decide)).2 [("requested_by", Value.vStr "agent")] rfl⟩

/-- **C8.** `get_bytes` on a non-existent path fails with a
"File not found" error; on a file larger than the configured limit it
fails with the size-limit error.  In both cases the result is exactly the
error dict (no `data` entry, so no partial content) and the capability
trace is empty: no byte of the file is read. -/
theorem claim_C8_get_bytes_guards
    (env : Env) (tracker : ContextTracker) (params : Dict) (rawPath : String)
    (hP : dget params "path" = some (.vStr rawPath)) (hne : rawPath ≠ "") :
    ((env.fs (env.resolvePath rawPath)).pathExists = false →
      ∃ tr2, executeE env tracker "get_bytes" params =
        .ok (errD ("File not found: " ++ env.resolvePath rawPath), [], tr2))
    ∧ (∀ size, (env.fs (env.resolvePath rawPath)).pathExists = true →
        (env.fs (env.resolvePath rawPath)).isFile = true →
        (env.fs (env.resolvePath rawPath)).stat = .ok size →
        env.max_read_size < size →
        ∃ tr2, executeE env tracker "get_bytes" params =
          .ok (errD ("File is too large to read safely (size=" ++ toString size ++
            " bytes, limit=" ++ toString env.max_read_size ++ " bytes)"), [], tr2))
    ∧ (∀ s, dget (errD s) "data" = none) := by
  refine ⟨?_, ?_, fun s => rfl⟩
  · intro hmiss
    have hrun : executeToolH env tracker "get_bytes" params =
        .ok (errD ("File not found: " ++ env.resolvePath rawPath), []) := by
      unfold executeToolH getBytesH
      simp [dgetD, hP, pyTruthy, hne, hmiss]
    exact ⟨_, by unfold executeE; rw [hrun]⟩
  · intro size hex hfile hstat hbig
    have hrun : executeToolH env tracker "get_bytes" params =
        .ok (errD ("File is too large to read safely (size=" ++ toString size ++
          " bytes, limit=" ++ toString env.max_read_size ++ " bytes)"), []) := by
      unfold executeToolH getBytesH
      simp [dgetD, hP, pyTruthy, hne, hex, hfile, hstat, hbig]
    exact ⟨_, by unfold executeE; rw [hrun]⟩

/-- **C8 witness**: the sample file system's missing path and oversized
file. -/
theorem claim_C8_witness :
    (∃ tr2, executeE sampleEnv emptyTracker "get_bytes"
        [("path", .vStr "/tmp/missing.txt")] =
      .ok (errD ("File not found: " ++ sampleEnv.resolvePath "/tmp/missing.txt"), [], tr2))
    ∧ (∃ tr2, executeE sampleEnv emptyTracker "get_bytes"
        [("path", .vStr "/tmp/big.bin")] =
      .ok (errD ("File is too large to read safely (size=" ++ toString (6291456 : Nat) ++
        " bytes, limit=" ++ toString sampleEnv.max_read_size ++ " bytes)"), [], tr2)) :=
  ⟨(claim_C8_get_bytes_guards sampleEnv emptyTracker [("path", .vStr "/tmp/missing.txt")]
      "/tmp/missing.txt" rfl (by decide)).1 rfl,
   (claim_C8_get_bytes_guards sampleEnv emptyTracker [("path", .vStr "/tmp/big.bin")]
      "/tmp/big.bin" rfl (by decide)).2.1 6291456 rfl rfl rfl (by decide)⟩

theorem dhas_dset_mono (d : Dict) (k k' : String) (v : Value) (h : dhas d k = true) :
    dhas (dset d k' v) k = true := by
  by_cases hk : k = k'
  · subst hk
    simp [dhas, dget_dset_same]
  · unfold dhas at h ⊢
    rw [dget_dset_other d k' k v hk]
    exact h

theorem dhas_dupdate_of (q p : Dict) (k : String) (h : dhas p k = true) :
    dhas (dupdate p q) k = true := by
  induction q generalizing p with
  | nil => exact h
  | cons kv rest ih =>
    unfold dupdate
    simp only [List.foldl_cons]
    exact ih (dset p kv.1 kv.2) (dhas_dset_mono p k kv.1 kv.2 h)

theorem findImageH_explained (env : Env) (params : Dict) :
    dhas (findImageH env params).1 "error" = true
    ∨ dhas (findImageH env params).1 "message" = true := by
  unfold findImageH
  dsimp only
  split
  · left; rfl
  · split
    · left; rfl
    · split
      · left; rfl
      · right; rfl

theorem waitLoop_explained (env : Env) (tp conf : Value) (msg : String) (fuel : Nat) :
    dhas (waitLoop env tp conf msg fuel).1 "error" = true
    ∨ dhas (waitLoop env tp conf msg fuel).1 "message" = true := by
  induction fuel with
  | zero => right; rfl
  | succ n ih =>
    unfold waitLoop
    dsimp only
    split
    · split
      all_goals first | (right; rfl) | exact ih
    · exact ih

/-- **C5 counterexample.** The claim says every `success=false` result
has `error` set, "including the wait_for_image timeout outcome"; but the
timeout outcome is `{"success": False, "message": ...}` with no `error`
key at all (`handlers.py:297`): here at `timeout = 0`. -/
theorem claim_C5_counterexample :
    (resultOf (executeE sampleEnv emptyTracker "wait_for_image"
        [("timeout", Value.vInt 0)])).map
      (fun r => (dget r "success", dget r "error")) =
    some (some (Value.vBool false), none) := rfl

set_option maxHeartbeats 1000000

/-- **C5 (amended).** Every `success=false` result of a non-raising
`execute` carries an explanation entry: an `error` string on the failure
paths the orchestrator builds itself (validation, safety rejection, size
limit, missing credential, vision/skill errors), or a `message` entry on
desktop-capability pass-through failures and the `wait_for_image`
timeout.  Stated as: a failed result always has an `error` or a
`message` key.  The hypothesis asks the same of the dicts returned by
pluggable skills, which `use_skill` passes through verbatim (the
repository's own skills satisfy it). -/
theorem claim_C5_amended_failure_results_explained
    (env : Env) (tracker : ContextTracker) (name : String) (params : Dict)
    (r : Dict) (calls : List CapCall) (tr2 : ContextTracker)
    (hskill : ∀ v f, env.skillLookup v = some f → ∀ p d, f p = .ok d →
        dget d "success" = some (.vBool false) →
        dhas d "error" = true ∨ dhas d "message" = true)
    (hexec : executeE env tracker name params = .ok (r, calls, tr2))
    (hfail : dget r "success" = some (.vBool false)) :
    dhas r "error" = true ∨ dhas r "message" = true := by
  unfold executeE at hexec
  cases hrun : executeToolH env tracker name params with
  | error e => rw [hrun] at hexec; cases hexec
  | ok rc =>
    obtain ⟨r0, c0⟩ := rc
    rw [hrun] at hexec
    simp only [Except.ok.injEq, Prod.mk.injEq] at hexec
    obtain ⟨h1, -, -⟩ := hexec
    subst h1
    unfold executeToolH at hrun
    by_cases hn00 : name = "launch_app"
    · rw [if_pos hn00] at hrun
      unfold launchAppH at hrun
      try dsimp only at hrun
      repeat' split at hrun
      all_goals first
      | exact (Except.noConfusion hrun)
      | (simp only [Except.ok.injEq, Prod.mk.injEq] at hrun
         obtain ⟨h, -⟩ := hrun
         subst h
         first | (left; rfl) | (right; rfl))
    · rw [if_neg hn00] at hrun
      by_cases hn01 : name = "list_windows"
      · rw [if_pos hn01] at hrun
        exact (Except.noConfusion hrun)
      · rw [if_neg hn01] at hrun
        by_cases hn02 : name = "focus_window"
        · rw [if_pos hn02] at hrun
          unfold focusWindowH at hrun
          try dsimp only at hrun
          repeat' split at hrun
          all_goals first
          | exact (Except.noConfusion hrun)
          | (simp only [Except.ok.injEq, Prod.mk.injEq] at hrun
             obtain ⟨h, -⟩ := hrun
             subst h
             first | (left; rfl) | (right; rfl))
        · rw [if_neg hn02] at hrun
          by_cases hn03 : name = "click"
          · rw [if_pos hn03] at hrun
            unfold clickH at hrun
            try dsimp only at hrun
            repeat' split at hrun
            all_goals first
            | exact (Except.noConfusion hrun)
            | (simp only [Except.ok.injEq, Prod.mk.injEq] at hrun
               obtain ⟨h, -⟩ := hrun
               subst h
               first | (left; rfl) | (right; rfl))
          · rw [if_neg hn03] at hrun
            by_cases hn04 : name = "type_text"
            · rw [if_pos hn04] at hrun
              unfold typeTextH at hrun
              try dsimp only at hrun
              repeat' split at hrun
              all_goals first
              | exact (Except.noConfusion hrun)
              | (simp only [Except.ok.injEq, Prod.mk.injEq] at hrun
                 obtain ⟨h, -⟩ := hrun
                 subst h
                 first | (left; rfl) | (right; rfl))
            · rw [if_neg hn04] at hrun
              by_cases hn05 : name = "scroll"
              · rw [if_pos hn05] at hrun
                unfold scrollH at hrun
                try dsimp only at hrun
                repeat' split at hrun
                all_goals first
                | exact (Except.noConfusion hrun)
                | (simp only [Except.ok.injEq, Prod.mk.injEq] at hrun
                   obtain ⟨h, -⟩ := hrun
                   subst h
                   first | (left; rfl) | (right; rfl))
              · rw [if_neg hn05] at hrun
                by_cases hn06 : name = "drag"
                · rw [if_pos hn06] at hrun
                  simp only [Except.ok.injEq, Prod.mk.injEq] at hrun
                  obtain ⟨h, -⟩ := hrun
                  subst h
                  left; rfl
                · rw [if_neg hn06] at hrun
                  by_cases hn07 : name = "get_screen_info"
                  · rw [if_pos hn07] at hrun
                    simp only [Except.ok.injEq, Prod.mk.injEq] at hrun
                    obtain ⟨h, -⟩ := hrun
                    subst h
                    left; rfl
                  · rw [if_neg hn07] at hrun
                    by_cases hn08 : name = "screenshot"
                    · rw [if_pos hn08] at hrun
                      unfold screenshotH at hrun
                      try dsimp only at hrun
                      simp only [Except.ok.injEq, Prod.mk.injEq] at hrun
                      obtain ⟨h, -⟩ := hrun
                      subst h
                      split
                      · right
                        exact dhas_dupdate_of _ _ "message" rfl
                      · right; rfl
                    · rw [if_neg hn08] at hrun
                      by_cases hn09 : name = "get_bytes"
                      · rw [if_pos hn09] at hrun
                        unfold getBytesH at hrun
                        try dsimp only at hrun
                        repeat' split at hrun
                        all_goals first
                        | exact (Except.noConfusion hrun)
                        | (simp only [Except.ok.injEq, Prod.mk.injEq] at hrun
                           obtain ⟨h, -⟩ := hrun
                           subst h
                           first | (left; rfl) | (right; rfl))
                      · rw [if_neg hn09] at hrun
                        by_cases hn10 : name = "perceive"
                        · rw [if_pos hn10] at hrun
                          unfold perceiveH at hrun
                          try dsimp only at hrun
                          repeat' split at hrun
                          all_goals first
                          | exact (Except.noConfusion hrun)
                          | (simp only [Except.ok.injEq, Prod.mk.injEq] at hrun
                             obtain ⟨h, -⟩ := hrun
                             subst h
                             first | (left; rfl) | (right; rfl))
                        · rw [if_neg hn10] at hrun
                          by_cases hn11 : name = "reason"
                          · rw [if_pos hn11] at hrun
                            unfold reasonH at hrun
                            try dsimp only at hrun
                            repeat' split at hrun
                            all_goals first
                            | exact (Except.noConfusion hrun)
                            | (simp only [Except.ok.injEq, Prod.mk.injEq] at hrun
                               obtain ⟨h, -⟩ := hrun
                               subst h
                               first | (left; rfl) | (right; rfl))
                          · rw [if_neg hn11] at hrun
                            by_cases hn12 : name = "manage_credentials"
                            · rw [if_pos hn12] at hrun
                              unfold manageCredentialsH at hrun
                              try dsimp only at hrun
                              repeat' split at hrun
                              all_goals first
                              | exact (Except.noConfusion hrun)
                              | (simp only [Except.ok.injEq, Prod.mk.injEq] at hrun
                                 obtain ⟨h, -⟩ := hrun
                                 subst h
                                 first | (left; rfl) | (right; rfl))
                            · rw [if_neg hn12] at hrun
                              by_cases hn13 : name = "type_password"
                              · rw [if_pos hn13] at hrun
                                unfold typePasswordH at hrun
                                try dsimp only at hrun
                                repeat' split at hrun
                                all_goals first
                                | exact (Except.noConfusion hrun)
                                | (simp only [Except.ok.injEq, Prod.mk.injEq] at hrun
                                   obtain ⟨h, -⟩ := hrun
                                   subst h
                                   first | (left; rfl) | (right; rfl))
                              · rw [if_neg hn13] at hrun
                                by_cases hn14 : name = "handle_sudo"
                                · rw [if_pos hn14] at hrun
                                  unfold handleSudoH typePasswordH at hrun
                                  try dsimp only at hrun
                                  repeat' split at hrun
                                  all_goals first
                                  | exact (Except.noConfusion hrun)
                                  | (simp only [Except.ok.injEq, Prod.mk.injEq] at hrun
                                     obtain ⟨h, -⟩ := hrun
                                     subst h
                                     first | (left; rfl) | (right; rfl))
                                · rw [if_neg hn14] at hrun
                                  by_cases hn15 : name = "find_image"
                                  · rw [if_pos hn15] at hrun
                                    simp only [Except.ok.injEq] at hrun
                                    have hx := findImageH_explained env params
                                    rw [hrun] at hx
                                    exact hx
                                  · rw [if_neg hn15] at hrun
                                    by_cases hn16 : name = "wait_for_image"
                                    · rw [if_pos hn16] at hrun
                                      unfold waitForImageH at hrun
                                      try dsimp only at hrun
                                      cases hval : valToQ (dgetD params "timeout" (.vInt 10)) with
                                      | none =>
                                        rw [hval] at hrun
                                        exact (Except.noConfusion hrun)
                                      | some t =>
                                        rw [hval] at hrun
                                        try dsimp only at hrun
                                        simp only [Except.ok.injEq] at hrun
                                        have hx := waitLoop_explained env ((dget params "template_path").getD .vNone)
                                          (dgetD params "confidence" (.vRat (4 / 5)))
                                          ("Timeout waiting for image after " ++ pyStr (dgetD params "timeout" (.vInt 10)) ++ "s")
                                          (if t ≤ 0 then 0 else env.waitPolls + 1)
                                        rw [hrun] at hx
                                        exact hx
                                    · rw [if_neg hn16] at hrun
                                      by_cases hn17 : name = "run_terminal_cmd"
                                      · rw [if_pos hn17] at hrun
                                        unfold runTerminalCmdH at hrun
                                        try dsimp only at hrun
                                        repeat' split at hrun
                                        all_goals first
                                        | exact (Except.noConfusion hrun)
                                        | (simp only [Except.ok.injEq, Prod.mk.injEq] at hrun
                                           obtain ⟨h, -⟩ := hrun
                                           subst h
                                           first | (left; rfl) | (right; rfl))
                                      · rw [if_neg hn17] at hrun
                                        by_cases hn18 : name = "check_notification"
                                        · rw [if_pos hn18] at hrun
                                          unfold checkNotificationH at hrun
                                          try dsimp only at hrun
                                          repeat' split at hrun
                                          all_goals first
                                          | exact (Except.noConfusion hrun)
                                          | (simp only [Except.ok.injEq, Prod.mk.injEq] at hrun
                                             obtain ⟨h, -⟩ := hrun
                                             subst h
                                             first | (left; rfl) | (right; rfl))
                                        · rw [if_neg hn18] at hrun
                                          by_cases hn19 : name = "use_skill"
                                          · rw [if_pos hn19] at hrun
                                            unfold useSkillH at hrun
                                            try dsimp only at hrun
                                            by_cases hsn : (!pyTruthy ((dget params "skill").getD .vNone)) = true
                                            · rw [if_pos hsn] at hrun
                                              simp only [Except.ok.injEq, Prod.mk.injEq] at hrun
                                              obtain ⟨h, -⟩ := hrun
                                              subst h
                                              left; rfl
                                            · rw [if_neg hsn] at hrun
                                              cases hl : env.skillLookup ((dget params "skill").getD .vNone) with
                                              | none =>
                                                rw [hl] at hrun
                                                try dsimp only at hrun
                                                simp only [Except.ok.injEq, Prod.mk.injEq] at hrun
                                                obtain ⟨h, -⟩ := hrun
                                                subst h
                                                left; rfl
                                              | some sk =>
                                                rw [hl] at hrun
                                                try dsimp only at hrun
                                                cases hev : sk (dgetD params "params" (.vDict [])) with
                                                | error e =>
                                                  rw [hev] at hrun
                                                  try dsimp only at hrun
                                                  simp only [Except.ok.injEq, Prod.mk.injEq] at hrun
                                                  obtain ⟨h, -⟩ := hrun
                                                  subst h
                                                  left; rfl
                                                | ok d =>
                                                  rw [hev] at hrun
                                                  try dsimp only at hrun
                                                  simp only [Except.ok.injEq, Prod.mk.injEq] at hrun
                                                  obtain ⟨h, -⟩ := hrun
                                                  subst h
                                                  exact hskill _ sk hl _ d hev hfail
                                          · rw [if_neg hn19] at hrun
                                            by_cases hn20 : name = "get_agent_history"
                                            · rw [if_pos hn20] at hrun
                                              unfold getAgentHistoryH at hrun
                                              try dsimp only at hrun
                                              cases hval : valToInt (dgetD params "limit" (.vInt 10)) with
                                              | none =>
                                                rw [hval] at hrun
                                                exact (Except.noConfusion hrun)
                                              | some limit =>
                                                rw [hval] at hrun
                                                try dsimp only at hrun
                                                simp only [Except.ok.injEq, Prod.mk.injEq] at hrun
                                                obtain ⟨h, -⟩ := hrun
                                                subst h
                                                simp [dget] at hfail
                                            · rw [if_neg hn20] at hrun
                                              exact (Except.noConfusion hrun)

/-- **C5 amended witness**: the `drag` stub's failure result carries an
`error` entry. -/
theorem claim_C5_amended_witness :
    dhas (errD "Tool \x27drag\x27 not implemented yet.") "error" = true
    ∨ dhas (errD "Tool \x27drag\x27 not implemented yet.") "message" = true :=
  claim_C5_amended_failure_results_explained sampleEnv emptyTracker "drag" [] _ _ _
    (fun _ _ hvf => by simp [sampleEnv] at hvf) rfl rfl

theorem getD_append_left_lt (p q : List Cand) (n : Nat) (h : n < p.length) :
    (p ++ q).getD n default = p.getD n default := by
  induction p generalizing n with
  | nil => simp at h
  | cons a p' ih =>
    cases n with
    | zero => rfl
    | succ m =>
      simp only [List.cons_append, List.getD_cons_succ]
      exact ih m (by simpa using h)

theorem getD_append_len (p : List Cand) (c : Cand) (q : List Cand) :
    (p ++ c :: q).getD p.length default = c := by
  induction p with
  | nil => rfl
  | cons a p' ih =>
    simpa only [List.cons_append, List.length_cons, List.getD_cons_succ] using ih

theorem pairwise_of_mem_rel (l : List TMatch) (r : TMatch → TMatch → Prop)
    (h : ∀ a ∈ l, ∀ b ∈ l, r a b) : l.Pairwise r := by
  induction l with
  | nil => exact List.Pairwise.nil
  | cons a t ih =>
    constructor
    · intro b hb
      exact h a (List.mem_cons_self a t) b (List.mem_cons_of_mem a hb)
    · exact ih (fun x hx y hy => h x (List.mem_cons_of_mem a hx) y (List.mem_cons_of_mem a hy))

theorem keptIdx_iff (w h : Nat) (l : List Cand) (i : Nat) :
    keptIdx w h l i = true ↔ ∀ j, j < i → keptIdx w h l j = true →
      closePoints w h (l.getD i default).x (l.getD i default).y
        (l.getD j default).x (l.getD j default).y = false := by
  rw [keptIdx]
  simp only [List.all_eq_true, List.mem_attach, true_implies, Subtype.forall,
    List.mem_range, Bool.not_eq_true', Bool.and_eq_false_iff]
  constructor
  · intro H j hj hk
    rcases H j hj with hcase | hcase
    · rw [hk] at hcase
      cases hcase
    · exact hcase
  · intro H j hj
    by_cases hk : keptIdx w h l j = true
    · exact Or.inr (H j hj hk)
    · exact Or.inl (by simpa using hk)

theorem nmsAux_eq (w h : Nat) (rest : List Cand) : ∀ (p : List Cand) (pts : List (Nat × Nat)),
    (∀ q : Nat × Nat, q ∈ pts ↔ ∃ j, j < p.length ∧ keptIdx w h (p ++ rest) j = true ∧
        ((p ++ rest).getD j default).x = q.1 ∧ ((p ++ rest).getD j default).y = q.2) →
    nmsAux w h pts rest =
      ((List.range' p.length rest.length).filter (fun i => keptIdx w h (p ++ rest) i)).map
        (fun i => (p ++ rest).getD i default) := by
  induction rest with
  | nil =>
    intro p pts _
    simp [nmsAux]
  | cons c rest' ih =>
    intro p pts hpts
    have hassoc : (p ++ [c]) ++ rest' = p ++ c :: rest' := by simp
    have hlen1 : (p ++ [c]).length = p.length + 1 := by simp
    have hgetk : ((p ++ c :: rest').getD p.length default) = c := getD_append_len p c rest'
    have hdup : isDup w h pts c.x c.y = true ↔
        ∃ j, j < p.length ∧ keptIdx w h (p ++ c :: rest') j = true ∧
          closePoints w h c.x c.y ((p ++ c :: rest').getD j default).x
            ((p ++ c :: rest').getD j default).y = true := by
      unfold isDup
      rw [List.any_eq_true]
      constructor
      · rintro ⟨q, hq, hcl⟩
        rcases (hpts q).mp hq with ⟨j, hj, hk, hx, hy⟩
        exact ⟨j, hj, hk, by rw [hx, hy]; exact hcl⟩
      · rintro ⟨j, hj, hk, hcl⟩
        exact ⟨(((p ++ c :: rest').getD j default).x, ((p ++ c :: rest').getD j default).y),
          (hpts _).mpr ⟨j, hj, hk, rfl, rfl⟩, hcl⟩
    have hkc : keptIdx w h (p ++ c :: rest') p.length = !(isDup w h pts c.x c.y) := by
      cases hd : isDup w h pts c.x c.y
      · rw [Bool.not_false, keptIdx_iff]
        intro j hj hk
        rw [hgetk]
        by_contra hcl
        have hcontra : isDup w h pts c.x c.y = true :=
          hdup.mpr ⟨j, hj, hk, by simpa using hcl⟩
        rw [hd] at hcontra
        cases hcontra
      · rw [Bool.not_true]
        rcases hdup.mp hd with ⟨j, hj, hk, hcl⟩
        by_contra hkk
        rw [Bool.not_eq_false] at hkk
        have hz := (keptIdx_iff w h (p ++ c :: rest') p.length).mp hkk j hj hk
        rw [hgetk] at hz
        rw [hz] at hcl
        cases hcl
    cases hd : isDup w h pts c.x c.y
    · -- accepted: not close to any processed point
      have hkt : keptIdx w h (p ++ c :: rest') p.length = true := by
        rw [hkc, hd]
        rfl
      have hpts' : ∀ q : Nat × Nat, q ∈ pts ++ [(c.x, c.y)] ↔ ∃ j, j < (p ++ [c]).length ∧
          keptIdx w h ((p ++ [c]) ++ rest') j = true ∧
          (((p ++ [c]) ++ rest').getD j default).x = q.1 ∧
          (((p ++ [c]) ++ rest').getD j default).y = q.2 := by
        intro q
        rw [hassoc, hlen1, List.mem_append, List.mem_singleton]
        constructor
        · rintro (hq | rfl)
          · rcases (hpts q).mp hq with ⟨j, hj, hk, hx, hy⟩
            exact ⟨j, Nat.lt_succ_of_lt hj, hk, hx, hy⟩
          · exact ⟨p.length, Nat.lt_succ_self _, hkt, by rw [hgetk], by rw [hgetk]⟩
        · rintro ⟨j, hj, hk, hx, hy⟩
          rcases Nat.lt_succ_iff_lt_or_eq.mp hj with hj' | rfl
          · exact Or.inl ((hpts q).mpr ⟨j, hj', hk, hx, hy⟩)
          · right
            rw [hgetk] at hx hy
            obtain ⟨q1, q2⟩ := q
            simp only at hx hy
            rw [← hx, ← hy]
      have hih := ih (p ++ [c]) (pts ++ [(c.x, c.y)]) hpts'
      rw [hassoc, hlen1] at hih
      rw [show nmsAux w h pts (c :: rest') = c :: nmsAux w h (pts ++ [(c.x, c.y)]) rest' from by
        simp [nmsAux, hd]]
      rw [hih]
      simp only [List.length_cons, List.range'_succ, List.filter_cons, hkt, if_true]
      rw [List.map_cons]
      congr 1
      exact hgetk.symm
    · -- duplicate: dropped
      have hkf : keptIdx w h (p ++ c :: rest') p.length = false := by
        rw [hkc, hd]
        rfl
      have hpts' : ∀ q : Nat × Nat, q ∈ pts ↔ ∃ j, j < (p ++ [c]).length ∧
          keptIdx w h ((p ++ [c]) ++ rest') j = true ∧
          (((p ++ [c]) ++ rest').getD j default).x = q.1 ∧
          (((p ++ [c]) ++ rest').getD j default).y = q.2 := by
        intro q
        rw [hassoc, hlen1]
        constructor
        · intro hq
          rcases (hpts q).mp hq with ⟨j, hj, hk, hx, hy⟩
          exact ⟨j, Nat.lt_succ_of_lt hj, hk, hx, hy⟩
        · rintro ⟨j, hj, hk, hx, hy⟩
          rcases Nat.lt_succ_iff_lt_or_eq.mp hj with hj' | rfl
          · exact (hpts q).mpr ⟨j, hj', hk, hx, hy⟩
          · rw [hkf] at hk
            cases hk
      have hih := ih (p ++ [c]) pts hpts'
      rw [hassoc, hlen1] at hih
      rw [show nmsAux w h pts (c :: rest') = nmsAux w h pts rest' from by simp [nmsAux, hd]]
      rw [hih]
      simp only [List.length_cons, List.range'_succ, List.filter_cons, hkf]
      simp

theorem insertionSort_filter_conf (l : List TMatch) (q : ℚ) :
    (List.insertionSort matchGE l).filter (fun m => decide (m.confidence = q)) =
      l.filter (fun m => decide (m.confidence = q)) := by
  set pq := fun m : TMatch => decide (m.confidence = q) with hpq
  have hallq : ∀ a ∈ l.filter pq, a.confidence = q := by
    intro a ha
    have := List.of_mem_filter ha
    simpa [hpq] using this
  have hsub : List.Sublist (l.filter pq) (List.insertionSort matchGE l) := by
    apply List.sublist_insertionSort
    · exact pairwise_of_mem_rel _ _ (fun a ha b hb => by
        unfold matchGE
        rw [hallq a ha, hallq b hb])
    · exact List.filter_sublist l
  have hself : (l.filter pq).filter pq = l.filter pq := by
    rw [List.filter_eq_self]
    intro a ha
    have := List.of_mem_filter ha
    simpa using this
  have hsub2 : List.Sublist (l.filter pq) ((List.insertionSort matchGE l).filter pq) := by
    have hf := hsub.filter pq
    rwa [hself] at hf
  have hperm : List.Perm ((List.insertionSort matchGE l).filter pq) (l.filter pq) :=
    (List.perm_insertionSort matchGE l).filter pq
  exact (hsub2.eq_of_length hperm.length_eq.symm).symm

/-- **C7.** The deduplication of `find_template` processes candidates in
scan order and keeps one exactly when no already-kept coordinate lies
within `w/2` horizontally and `h/2` vertically (`keptIdx` is that
acceptance predicate, stated as the fixpoint "kept iff no earlier kept
candidate is close"); the returned matches are the kept candidates sorted
by descending confidence, and equal-confidence matches keep their scan
order (stability, phrased as: filtering any confidence level preserves
the pre-sort order). -/
theorem claim_C7_find_template_dedup_and_order (w h : Nat) (l : List Cand) :
    nmsAux w h [] l =
      ((List.range l.length).filter (fun i => keptIdx w h l i)).map (fun i => l.getD i default)
    ∧ (find_template w h l).Pairwise (fun a b => b.confidence ≤ a.confidence)
    ∧ (find_template w h l).Perm ((nmsAux w h [] l).map (toMatch w h))
    ∧ ∀ q : ℚ, (find_template w h l).filter (fun m => decide (m.confidence = q)) =
        ((nmsAux w h [] l).map (toMatch w h)).filter (fun m => decide (m.confidence = q)) := by
  refine ⟨?_, ?_, ?_, ?_⟩
  · have hx := nmsAux_eq w h l [] [] (by simp)
    simpa [List.range_eq_range'] using hx
  · exact List.sorted_insertionSort matchGE _
  · exact List.perm_insertionSort matchGE _
  · intro q
    exact insertionSort_filter_conf _ q

end UCMC
